import Mathlib

/-!
Verification of the cs_caller real-time pipeline components.

Shallow embedding of the Python sources:
* `src/cs_caller/announcer.py` — the announcement gate (stability + cooldown),
* `src/cs_caller/frame_clock.py` — the fixed-rate frame clock,
* `src/cs_caller/gui/connect_state.py` — the connect attempt tracker,
* `src/cs_caller/callout_mapper.py` — the point-to-region resolver,
* `src/cs_caller/sources/ndi_native.py` — live-stream source name matching,
* `src/cs_caller/detector.py` — the marker detector's contour selection.

Python floats are embedded as exact rationals (`ℚ`), Python ints as `ℤ`/`ℕ`,
Python dicts as association lists, fallible constructors as `Except`.
-/

/-! ## Announcement gate (`src/cs_caller/announcer.py`) -/

/-- Mutable per-instance state created by `Announcer.__post_init__`:
`_candidate`, `_candidate_count`, `_last_announced_at`. The Python dict
`_last_announced_at` is embedded as an association list with first-match
lookup and in-place overwrite. -/
structure AnnouncerState where
  candidate : Option String
  candidateCount : Nat
  lastAnnouncedAt : List (String × ℚ)
deriving DecidableEq

/-- Embedding of `dict.get`: the value stored at the first matching key. -/
def lookupLast : List (String × ℚ) → String → Option ℚ
  | [], _ => none
  | (k, v) :: rest, c => if k = c then some v else lookupLast rest c

/-- Embedding of `dict.__setitem__`: overwrite the first matching key,
or append the binding when the key is absent. -/
def setLast : List (String × ℚ) → String → ℚ → List (String × ℚ)
  | [], c, t => [(c, t)]
  | (k, v) :: rest, c, t => if k = c then (c, t) :: rest else (k, v) :: setLast rest c t

/-- Configuration of the `Announcer` dataclass (the TTS sink is an external
collaborator and contributes nothing to the gate decision; its `say` call
receives exactly the returned text). `stable_frames` is a Python int, so `ℤ`. -/
structure Announcer where
  cooldownSec : ℚ
  stableFrames : ℤ

/-- Fresh per-instance state set up by `Announcer.__post_init__`. -/
def initState : AnnouncerState := ⟨none, 0, []⟩

/-- Construction: `__post_init__` raises `ValueError` when `stable_frames <= 0`. -/
def mkAnnouncer (cooldownSec : ℚ) (stableFrames : ℤ) : Except String Announcer :=
  if stableFrames ≤ 0 then Except.error "stable_frames 必须大于 0"
  else Except.ok ⟨cooldownSec, stableFrames⟩

/-- The f-string of `Announcer.process`. -/
def announceText (c : String) : String := "敌人可能在 " ++ c

/-- The candidate-tracking step of `Announcer.process`: the same callout as
the current candidate increments `_candidate_count`, a different one replaces
the candidate and resets the count to 1. -/
def updateCandidate (s : AnnouncerState) (c : String) : AnnouncerState :=
  if s.candidate = some c then ⟨some c, s.candidateCount + 1, s.lastAnnouncedAt⟩
  else ⟨some c, 1, s.lastAnnouncedAt⟩

/-- Embedding of `Announcer.process(callout, now)`, returning the announced
text (or `none`) together with the updated state. The injected time `ts`
replaces `time.monotonic()`. `last_announced_at.get(callout, float("-inf"))`
is embedded by the `Option` returned from the lookup: an absent key means
`-inf`, and `ts - (-inf) < cooldown_sec` is false for every finite cooldown,
so the absent branch announces unconditionally. -/
def Announcer.process (a : Announcer) (s : AnnouncerState) (callout : Option String) (ts : ℚ) :
    Option String × AnnouncerState :=
  match callout with
  | none => (none, ⟨none, 0, s.lastAnnouncedAt⟩)
  | some c =>
    let s1 : AnnouncerState := updateCandidate s c
    if (s1.candidateCount : ℤ) < a.stableFrames then (none, s1)
    else
      match lookupLast s1.lastAnnouncedAt c with
      | none =>
        (some (announceText c), ⟨s1.candidate, s1.candidateCount, setLast s1.lastAnnouncedAt c ts⟩)
      | some lastAt =>
        if ts - lastAt < a.cooldownSec then (none, s1)
        else
          (some (announceText c), ⟨s1.candidate, s1.candidateCount, setLast s1.lastAnnouncedAt c ts⟩)

/-- Drive the gate with the same callout on consecutive ticks at the given
injected times, collecting the per-tick results. -/
def feedSame (a : Announcer) (c : String) :
    AnnouncerState → List ℚ → List (Option String) × AnnouncerState
  | s, [] => ([], s)
  | s, t :: rest =>
    let r := a.process s (some c) t
    let r2 := feedSame a c r.2 rest
    (r.1 :: r2.1, r2.2)

/-! ## Frame clock (`src/cs_caller/frame_clock.py`) -/

/-- State of `FrameClock` after `__post_init__`: `_interval = 1/fps` and the
`_next_tick` deadline. -/
structure FrameClock where
  interval : ℚ
  nextTick : ℚ
deriving DecidableEq

/-- Construction: `__post_init__` raises `ValueError` when `fps <= 0`;
otherwise `_interval = 1.0 / fps` and `_next_tick` is seeded with the current
monotonic time (injected here as `now`). -/
def mkFrameClock (fps : ℚ) (now : ℚ) : Except String FrameClock :=
  if fps ≤ 0 then Except.error "fps 必须大于 0"
  else Except.ok ⟨1 / fps, now⟩

/-- Embedding of `FrameClock.tick`. The two `time.monotonic()` readings are
injected: `now1` is read before the sleep, `now2` after it. The result is the
requested sleep duration (`time.sleep(self._next_tick - now)` when
`now < self._next_tick`, else no sleep) paired with the updated clock, whose
deadline is `max(self._next_tick + self._interval, time.monotonic())`. -/
def FrameClock.tick (c : FrameClock) (now1 now2 : ℚ) : ℚ × FrameClock :=
  let sleepFor := if now1 < c.nextTick then c.nextTick - now1 else 0
  (sleepFor, ⟨c.interval, max (c.nextTick + c.interval) now2⟩)

/-! ## Connect attempt tracker (`src/cs_caller/gui/connect_state.py`) -/

/-- State of `ConnectAttemptTracker`: `_next_attempt_id` and
`_active_attempt_id`. -/
structure ConnectAttemptTracker where
  nextAttemptId : Nat
  activeAttemptId : Option Nat
deriving DecidableEq

/-- `__init__`: ids start at 0, nothing active. -/
def trackerInit : ConnectAttemptTracker := ⟨0, none⟩

/-- Property `is_connecting`: true iff an attempt id is active. -/
def ConnectAttemptTracker.isConnecting (s : ConnectAttemptTracker) : Bool :=
  s.activeAttemptId.isSome

/-- `start()`: increment `_next_attempt_id`, make it active, return it. -/
def ConnectAttemptTracker.start (s : ConnectAttemptTracker) : Nat × ConnectAttemptTracker :=
  (s.nextAttemptId + 1, ⟨s.nextAttemptId + 1, some (s.nextAttemptId + 1)⟩)

/-- `finish(attempt_id)`: succeeds (clears the active id, returns `True`)
only when `attempt_id` is still the active one; otherwise returns `False`
and leaves the state untouched. -/
def ConnectAttemptTracker.finish (s : ConnectAttemptTracker) (attemptId : Nat) :
    Bool × ConnectAttemptTracker :=
  if s.activeAttemptId = some attemptId then (true, ⟨s.nextAttemptId, none⟩)
  else (false, s)

/-- `cancel()`: return the active id (or `none`) and clear it. -/
def ConnectAttemptTracker.cancel (s : ConnectAttemptTracker) :
    Option Nat × ConnectAttemptTracker :=
  (s.activeAttemptId, ⟨s.nextAttemptId, none⟩)

/-- The tracker's method calls, for stating properties over arbitrary
interleavings of operations. -/
inductive TrackerOp
  | opStart
  | opFinish (attemptId : Nat)
  | opCancel
deriving DecidableEq

/-- Apply one tracker method, discarding its return value. -/
def applyOp (s : ConnectAttemptTracker) : TrackerOp → ConnectAttemptTracker
  | TrackerOp.opStart => s.start.2
  | TrackerOp.opFinish i => (s.finish i).2
  | TrackerOp.opCancel => s.cancel.2

/-- Apply a sequence of tracker methods. -/
def applyOps (s : ConnectAttemptTracker) (ops : List TrackerOp) : ConnectAttemptTracker :=
  ops.foldl applyOp s

/-! ## Region resolver (`src/cs_caller/callout_mapper.py`) -/

/-- Embedding of `_point_on_segment(p, a, b)`: cross-product collinearity test
with absolute tolerance `1e-6`, then the projection bounds. -/
def point_on_segment (p a b : ℚ × ℚ) : Bool :=
  if |(p.1 - a.1) * (b.2 - a.2) - (p.2 - a.2) * (b.1 - a.1)| > 1 / 1000000 then false
  else if (p.1 - a.1) * (b.1 - a.1) + (p.2 - a.2) * (b.2 - a.2) < 0 then false
  else
    decide ((p.1 - a.1) * (b.1 - a.1) + (p.2 - a.2) * (b.2 - a.2) ≤
      (b.1 - a.1) ^ 2 + (b.2 - a.2) ^ 2)

/-- The loop body of `point_in_polygon` over the edge list, threading the
ray-casting parity `inside`; an edge passing `_point_on_segment` returns
`True` immediately. -/
def pipEdges (p : ℚ × ℚ) : List ((ℚ × ℚ) × (ℚ × ℚ)) → Bool → Bool
  | [], inside => inside
  | (a, b) :: rest, inside =>
    if point_on_segment p a b then true
    else if (decide (a.2 > p.2)) != (decide (b.2 > p.2)) then
      if (b.1 - a.1) * (p.2 - a.2) / (b.2 - a.2 + 1 / 1000000000000) + a.1 ≥ p.1 then
        pipEdges p rest (!inside)
      else pipEdges p rest inside
    else pipEdges p rest inside

/-- Embedding of `point_in_polygon(point, polygon)`: fewer than 3 vertices
never contain; otherwise ray casting over the edges
`polygon[i] → polygon[(i+1) % n]`, with boundary inclusion. -/
def point_in_polygon (p : ℚ × ℚ) (polygon : List (ℚ × ℚ)) : Bool :=
  if polygon.length < 3 then false
  else pipEdges p (polygon.zip (polygon.rotate 1)) false

/-- The `Region` dataclass. -/
structure Region where
  name : String
  polygon : List (ℚ × ℚ)

/-- Embedding of `CalloutMapper.map_point`: first region (in configuration
order) whose polygon contains the point. -/
def map_point (regions : List Region) (p : ℚ × ℚ) : Option String :=
  match regions with
  | [] => none
  | r :: rest => if point_in_polygon p r.polygon then some r.name else map_point rest p

/-! ## Live stream source name matching (`src/cs_caller/sources/ndi_native.py`) -/

/-- Character-list test: the first list is a leading segment of the second. -/
def isPrefixChars : List Char → List Char → Bool
  | [], _ => true
  | _ :: _, [] => false
  | a :: as, b :: bs => a == b && isPrefixChars as bs

/-- Character-list embedding of Python's `needle in hay` substring test. -/
def subMatch (needle : List Char) : List Char → Bool
  | [] => needle.isEmpty
  | c :: rest => isPrefixChars needle (c :: rest) || subMatch needle rest

/-- Drop leading and trailing whitespace (Python `str.strip`). -/
def trimChars (l : List Char) : List Char :=
  ((l.dropWhile Char.isWhitespace).reverse.dropWhile Char.isWhitespace).reverse

/-- Python `str.strip()`. -/
def pyStrip (s : String) : String := String.mk (trimChars s.data)

/-- Python `str.casefold()` / `str.lower()`, restricted to the ASCII mapping. -/
def pyLower (s : String) : String := String.mk (s.data.map Char.toLower)

/-- Embedding of `normalize_requested_source_text`: strip, drop a
case-insensitive `ndi://` scheme, strip again. -/
def normalize_requested_source_text (sourceText : String) : String :=
  let raw := pyStrip sourceText
  let raw2 :=
    if isPrefixChars "ndi://".data (pyLower raw).data then String.mk (raw.data.drop 6)
    else raw
  pyStrip raw2

/-- Python `name.split(" - ")` over characters, leftmost non-overlapping. -/
def splitDash : List Char → List Char → List (List Char)
  | [], acc => [acc.reverse]
  | ' ' :: '-' :: ' ' :: rest, acc => acc.reverse :: splitDash rest []
  | c :: rest, acc => splitDash rest (c :: acc)

/-- Python `name.split("(", 1)[0]`: the text before the first parenthesis. -/
def beforeParen (s : String) : String := String.mk (s.data.takeWhile (fun c => c ≠ '('))

/-- Python `dict.fromkeys` deduplication keeping first occurrences. -/
def dedupFirst (l : List String) : List String :=
  l.foldl (fun acc x => if acc.contains x then acc else acc ++ [x]) []

/-- Embedding of the `_aliases` helper of `select_best_ndi_source`: the
trimmed name, the text before a parenthetical suffix, and the nonempty
trimmed segments split on `" - "`, deduplicated. -/
def sourceAliases (nameRaw : String) : List String :=
  let name := pyStrip nameRaw
  if name = "" then []
  else
    let base := [name]
    let base2 :=
      if name.data.contains '(' && name.data.getLast? == some ')' then
        base ++ [pyStrip (beforeParen name)]
      else base
    let base3 :=
      if (splitDash name.data []).length > 1 then
        base2 ++ ((splitDash name.data []).map (fun cs => pyStrip (String.mk cs))).filter
          (fun s => s ≠ "")
      else base2
    dedupFirst base3

/-- The `NDISourceInfo` dataclass (the opaque `raw` backend handle is not
part of the matching logic). -/
structure NDISourceInfo where
  name : String
  address : String
deriving DecidableEq

/-- The `NDIConnectionErrorDetails` dataclass carried by the `ConnectError`
raised when no discovered source matches. -/
structure NDIConnectionErrorDetails where
  requested : String
  normalized : String
  discovered : List NDISourceInfo
deriving DecidableEq

/-- Pass 1 of `select_best_ndi_source`: some alias equals the normalized
request, case-insensitively. -/
def exactAliasMatch (normalizedL : String) (src : NDISourceInfo) : Bool :=
  (sourceAliases src.name).any (fun a => pyLower a == normalizedL)

/-- Pass 2 of `select_best_ndi_source`: substring containment in either
direction, case-insensitively. -/
def containsAliasMatch (normalizedL : String) (src : NDISourceInfo) : Bool :=
  (sourceAliases src.name).any (fun a =>
    subMatch normalizedL.data (pyLower a).data || subMatch (pyLower a).data normalizedL.data)

/-- Embedding of `select_best_ndi_source(source_text, discovered)`. -/
def select_best_ndi_source (sourceText : String) (discovered : List NDISourceInfo) :
    Option NDISourceInfo :=
  if discovered.isEmpty then none
  else
    let normalized := normalize_requested_source_text sourceText
    if normalized = "" then discovered.head?
    else
      let normalizedL := pyLower normalized
      match discovered.find? (exactAliasMatch normalizedL) with
      | some src => some src
      | none => discovered.find? (containsAliasMatch normalizedL)

/-- Embedding of `NDIConnectionErrorDetails.format_for_human`. -/
def format_for_human (d : NDIConnectionErrorDetails) : String :=
  let names := (d.discovered.map NDISourceInfo.name).filter (fun n => n ≠ "")
  let normShown := if d.normalized = "" then "-" else d.normalized
  if names.isEmpty then
    "请求源: " ++ d.requested ++ "（归一化: " ++ normShown ++ "）；当前未发现任何 NDI 源。"
  else
    "请求源: " ++ d.requested ++ "（归一化: " ++ normShown ++ "）；当前发现 " ++
      toString names.length ++ " 个源: " ++ String.intercalate ", " names

/-- Embedding of the selection step of `NDISource._connect_once` (lines
265-274): given the discovery result, either the selected source or the
`ConnectError` payload enumerating the requested name, its normalization and
the full discovered list. Receiver creation (which follows a successful
selection) is outside the matching contract and is not modelled. -/
def connectOnceSelect (sourceText : String) (discovered : List NDISourceInfo) :
    Except NDIConnectionErrorDetails NDISourceInfo :=
  match select_best_ndi_source sourceText discovered with
  | none => Except.error ⟨sourceText, normalize_requested_source_text sourceText, discovered⟩
  | some src => Except.ok src

/-! ## Marker detector contour selection (`src/cs_caller/detector.py`) -/

/-- The contour moments used by `RedDotDetector.detect` (`cv2.moments`). -/
structure Moments where
  m00 : ℚ
  m10 : ℚ
  m01 : ℚ
deriving DecidableEq

/-- An extracted contour: its `cv2.contourArea` and its moments. -/
structure Contour where
  area : ℚ
  moments : Moments
deriving DecidableEq

/-- Python `max(contours, key=cv2.contourArea)`: the first contour of
maximal area (later contours replace the best only when strictly larger). -/
def maxByArea : Contour → List Contour → Contour
  | best, [] => best
  | best, c :: rest => maxByArea (if best.area < c.area then c else best) rest

/-- Python `int()` applied to a float: truncation toward zero. -/
def pyInt (q : ℚ) : ℤ := if 0 ≤ q then ⌊q⌋ else -⌊-q⌋

/-- Embedding of the tail of `RedDotDetector.detect` (lines 33-48): the
contour list extracted by `cv2.findContours` from the masked frame is the
input; the winning contour, the `min_area` threshold, the zero-moment guard
and the centroid computation follow the source. -/
def detectFromContours (minArea : ℚ) (contours : List Contour) : Option (ℤ × ℤ) :=
  match contours with
  | [] => none
  | c :: rest =>
    let best := maxByArea c rest
    if best.area < minArea then none
    else if best.moments.m00 = 0 then none
    else
      some (pyInt (best.moments.m10 / best.moments.m00),
        pyInt (best.moments.m01 / best.moments.m00))

/-- Modelled from the spec: "rounded to nearest integer pixel" — rounding a
coordinate to the nearest integer (half rounds up). Used only to compare the
spec's claimed centroid against the code's. -/
def roundNearest (q : ℚ) : ℤ := ⌊q + 1 / 2⌋

/-! ## Helper lemmas -/

theorem lookupLast_setLast (l : List (String × ℚ)) (c : String) (t : ℚ) (d : String) :
    lookupLast (setLast l c t) d = if d = c then some t else lookupLast l d := by
  induction l with
  | nil =>
    by_cases h : d = c
    · subst h; simp [setLast, lookupLast]
    · have h' : ¬ c = d := fun hh => h hh.symm
      simp [setLast, lookupLast, h, h']
  | cons kv rest ih =>
    obtain ⟨k, v⟩ := kv
    by_cases hkc : k = c
    · subst hkc
      by_cases hdk : d = k <;> simp [setLast, lookupLast, hdk, eq_comm]
    · by_cases hkd : k = d
      · subst hkd
        have hdc : ¬ k = c := hkc
        simp [setLast, lookupLast, hkc, hdc]
      · simp [setLast, lookupLast, hkc, hkd, ih]

theorem updateCandidate_last (s : AnnouncerState) (c : String) :
    (updateCandidate s c).lastAnnouncedAt = s.lastAnnouncedAt := by
  unfold updateCandidate
  split_ifs <;> rfl

theorem updateCandidate_candidate (s : AnnouncerState) (c : String) :
    (updateCandidate s c).candidate = some c := by
  unfold updateCandidate
  split_ifs <;> rfl

theorem updateCandidate_count_same (s : AnnouncerState) (c : String)
    (h : s.candidate = some c) :
    (updateCandidate s c).candidateCount = s.candidateCount + 1 := by
  unfold updateCandidate
  rw [if_pos h]

theorem updateCandidate_count_new (s : AnnouncerState) (c : String)
    (h : ¬ s.candidate = some c) :
    (updateCandidate s c).candidateCount = 1 := by
  unfold updateCandidate
  rw [if_neg h]

theorem process_some_cases (a : Announcer) (s : AnnouncerState) (c : String) (ts : ℚ) :
    (a.process s (some c) ts = (none, updateCandidate s c)
      ∧ (((updateCandidate s c).candidateCount : ℤ) < a.stableFrames
        ∨ ∃ lastAt, lookupLast s.lastAnnouncedAt c = some lastAt
            ∧ ts - lastAt < a.cooldownSec))
    ∨ (a.process s (some c) ts = (some (announceText c),
        ⟨some c, (updateCandidate s c).candidateCount, setLast s.lastAnnouncedAt c ts⟩)
      ∧ ¬ ((updateCandidate s c).candidateCount : ℤ) < a.stableFrames
      ∧ ∀ lastAt, lookupLast s.lastAnnouncedAt c = some lastAt →
          a.cooldownSec ≤ ts - lastAt) := by
  simp only [Announcer.process, updateCandidate_last, updateCandidate_candidate]
  by_cases h1 : ((updateCandidate s c).candidateCount : ℤ) < a.stableFrames
  · rw [if_pos h1]
    exact Or.inl ⟨rfl, Or.inl h1⟩
  · rw [if_neg h1]
    cases hlook : lookupLast s.lastAnnouncedAt c with
    | none =>
      refine Or.inr ⟨rfl, h1, ?_⟩
      intro lastAt hla
      cases hla
    | some lastAt =>
      by_cases h2 : ts - lastAt < a.cooldownSec
      · exact Or.inl ⟨if_pos h2, Or.inr ⟨lastAt, rfl, h2⟩⟩
      · refine Or.inr ⟨if_neg h2, h1, ?_⟩
        intro la hla
        cases hla
        linarith [not_lt.mp h2]

theorem applyOp_nextId_mono (s : ConnectAttemptTracker) (op : TrackerOp) :
    s.nextAttemptId ≤ (applyOp s op).nextAttemptId := by
  cases op with
  | opStart => simp [applyOp, ConnectAttemptTracker.start]
  | opFinish i =>
    simp only [applyOp, ConnectAttemptTracker.finish]
    split <;> simp
  | opCancel => simp [applyOp, ConnectAttemptTracker.cancel]

theorem applyOps_nextId_mono (ops : List TrackerOp) :
    ∀ s : ConnectAttemptTracker, s.nextAttemptId ≤ (applyOps s ops).nextAttemptId := by
  induction ops with
  | nil => intro s; simp [applyOps]
  | cons op rest ih =>
    intro s
    have h1 := applyOp_nextId_mono s op
    have h2 := ih (applyOp s op)
    calc s.nextAttemptId ≤ (applyOp s op).nextAttemptId := h1
      _ ≤ (applyOps (applyOp s op) rest).nextAttemptId := h2
      _ = (applyOps s (op :: rest)).nextAttemptId := rfl

/-! ## C8 — gate tick with absent callout -/

/-- C8: processing a tick with `callout = none` returns no announcement,
resets the candidate to empty and the consecutive count to zero, and leaves
the per-callout `last_announced_at` mapping exactly as it was — the
timestamps persist across such ticks for the lifetime of the gate instance,
so distinct callouts cool down independently. -/
theorem announcer_none_resets_spec (a : Announcer) (s : AnnouncerState) (ts : ℚ) :
    a.process s none ts = (none, ⟨none, 0, s.lastAnnouncedAt⟩) := rfl

/-! ## C9 — construction-time validation -/

/-- C9: constructing the announcement gate with `stable_frames ≤ 0` raises a
configuration error, and constructing the frame clock with `fps ≤ 0` raises a
configuration error; both are rejected at construction time, and construction
with `stable_frames > 0` resp. `fps > 0` yields the instance. -/
theorem construction_validation_spec (cooldownSec : ℚ) (stableFrames : ℤ) (fps now : ℚ) :
    (mkAnnouncer cooldownSec stableFrames = Except.error "stable_frames 必须大于 0"
      ↔ stableFrames ≤ 0)
    ∧ (0 < stableFrames →
        mkAnnouncer cooldownSec stableFrames = Except.ok ⟨cooldownSec, stableFrames⟩)
    ∧ (mkFrameClock fps now = Except.error "fps 必须大于 0" ↔ fps ≤ 0)
    ∧ (0 < fps → mkFrameClock fps now = Except.ok ⟨1 / fps, now⟩) := by
  refine ⟨?_, ?_, ?_, ?_⟩
  · unfold mkAnnouncer
    split_ifs with h <;> simp [h]
  · intro h
    unfold mkAnnouncer
    rw [if_neg (by omega)]
  · unfold mkFrameClock
    split_ifs with h <;> simp [h]
  · intro h
    unfold mkFrameClock
    rw [if_neg (by linarith)]

/-- Witness for C9 at concrete parameters: `stable_frames = 3` and `fps = 16`
are accepted, the instances carry the given configuration. -/
theorem construction_validation_witness :
    mkAnnouncer 2 3 = Except.ok ⟨2, 3⟩ ∧ mkFrameClock 16 0 = Except.ok ⟨1 / 16, 0⟩ :=
  ⟨(construction_validation_spec 2 3 16 0).2.1 (by norm_num),
    (construction_validation_spec 2 3 16 0).2.2.2 (by norm_num)⟩

/-! ## C6 — frame clock tick -/

/-- C6 (amended): `tick()` blocks the caller until at least the current
`next_tick` deadline; the new deadline is `max(next_tick + interval, now)`,
so it advances by exactly `interval` whenever the caller is on time
(`now ≤ next_tick + interval`) and is never scheduled in the past; but when
the caller has fallen behind, the new deadline is reset to the current time
`now` itself — not to `now + interval` as the original claim stated. -/
theorem frame_clock_tick_spec (c : FrameClock) (now1 now2 : ℚ) :
    c.nextTick ≤ now1 + (c.tick now1 now2).1
    ∧ (c.tick now1 now2).2.nextTick = max (c.nextTick + c.interval) now2
    ∧ now2 ≤ (c.tick now1 now2).2.nextTick
    ∧ (c.tick now1 now2).2.interval = c.interval
    ∧ (now2 ≤ c.nextTick + c.interval →
        (c.tick now1 now2).2.nextTick = c.nextTick + c.interval)
    ∧ (c.nextTick + c.interval < now2 → (c.tick now1 now2).2.nextTick = now2) := by
  refine ⟨?_, rfl, le_max_right _ _, rfl, fun h => max_eq_left h, fun h => max_eq_right h.le⟩
  show c.nextTick ≤ now1 + if now1 < c.nextTick then c.nextTick - now1 else 0
  split_ifs with h
  · linarith
  · linarith

/-- Witness for C6 at a concrete fallen-behind input: interval 1, deadline 0,
current time 5. -/
theorem frame_clock_tick_witness :
    (0 : ℚ) ≤ 5 + (FrameClock.tick ⟨1, 0⟩ 5 5).1
    ∧ (FrameClock.tick ⟨1, 0⟩ 5 5).2.nextTick = max ((0 : ℚ) + 1) 5
    ∧ (5 : ℚ) ≤ (FrameClock.tick ⟨1, 0⟩ 5 5).2.nextTick
    ∧ (FrameClock.tick ⟨1, 0⟩ 5 5).2.interval = 1
    ∧ ((5 : ℚ) ≤ 0 + 1 → (FrameClock.tick ⟨1, 0⟩ 5 5).2.nextTick = 0 + 1)
    ∧ ((0 : ℚ) + 1 < 5 → (FrameClock.tick ⟨1, 0⟩ 5 5).2.nextTick = 5) :=
  frame_clock_tick_spec ⟨1, 0⟩ 5 5

/-- Counterexample for C6 as stated: with interval 1 and deadline 0, a caller
arriving at time 5 has fallen behind (`5 > next_tick + interval = 1`); the
claim says the new deadline is `now + interval = 6`, but the code sets
`max(next_tick + interval, now) = 5`. -/
theorem frame_clock_tick_counterexample :
    (0 : ℚ) + 1 < 5
    ∧ (FrameClock.tick ⟨1, 0⟩ 5 5).2.nextTick = 5
    ∧ (FrameClock.tick ⟨1, 0⟩ 5 5).2.nextTick ≠ 5 + 1 := by
  have h : (FrameClock.tick ⟨1, 0⟩ 5 5).2.nextTick = 5 := by
    show max ((0 : ℚ) + 1) 5 = 5
    rw [max_eq_right (by norm_num)]
  refine ⟨by norm_num, h, ?_⟩
  rw [h]
  norm_num

/-! ## C4 — connect attempt tracker -/

/-- C4: `finish(id)` returns true and clears the active attempt iff `id` is
the currently active attempt id (and a failed finish leaves the state
untouched); after `start() = A` then `cancel()`, `finish(A)` returns false
and `is_connecting` stays false; after `start() = A` then `start() = B`,
`finish(A)` returns false while `finish(B)` returns true; and the id issued
by `start()` is strictly larger than any previously issued one, whatever
operations ran in between. -/
theorem connect_attempt_tracker_spec (s : ConnectAttemptTracker) (attemptId : Nat)
    (ops : List TrackerOp) :
    ((s.finish attemptId).1 = true ↔ s.activeAttemptId = some attemptId)
    ∧ (s.activeAttemptId = some attemptId → (s.finish attemptId).2.activeAttemptId = none)
    ∧ ((s.finish attemptId).1 = false → (s.finish attemptId).2 = s)
    ∧ (s.start.2.cancel.2.finish s.start.1).1 = false
    ∧ (s.start.2.cancel.2.finish s.start.1).2.isConnecting = false
    ∧ (s.start.2.start.2.finish s.start.1).1 = false
    ∧ ((s.start.2.start.2.finish s.start.1).2.finish s.start.2.start.1).1 = true
    ∧ s.start.1 < ((applyOps s.start.2 ops).start).1 := by
  refine ⟨?_, ?_, ?_, ?_, ?_, ?_, ?_, ?_⟩
  · unfold ConnectAttemptTracker.finish
    split_ifs with h <;> simp [h]
  · intro h
    unfold ConnectAttemptTracker.finish
    rw [if_pos h]
  · unfold ConnectAttemptTracker.finish
    split_ifs with h <;> simp
  · simp [ConnectAttemptTracker.start, ConnectAttemptTracker.cancel,
      ConnectAttemptTracker.finish]
  · simp [ConnectAttemptTracker.start, ConnectAttemptTracker.cancel,
      ConnectAttemptTracker.finish, ConnectAttemptTracker.isConnecting]
  · simp [ConnectAttemptTracker.start, ConnectAttemptTracker.finish]
  · simp [ConnectAttemptTracker.start, ConnectAttemptTracker.finish]
  · have h := applyOps_nextId_mono ops s.start.2
    simp only [ConnectAttemptTracker.start] at h ⊢
    omega

/-- Witness for C4 on a fresh tracker: the cancelled attempt 1 cannot be
finished, superseding attempt 2 wins over attempt 1, and a later `start`
(after a cancel in between) issues a strictly larger id. -/
theorem connect_attempt_tracker_witness :
    (trackerInit.start.2.cancel.2.finish trackerInit.start.1).1 = false
    ∧ (trackerInit.start.2.cancel.2.finish trackerInit.start.1).2.isConnecting = false
    ∧ (trackerInit.start.2.start.2.finish trackerInit.start.1).1 = false
    ∧ ((trackerInit.start.2.start.2.finish trackerInit.start.1).2.finish
        trackerInit.start.2.start.1).1 = true
    ∧ trackerInit.start.1 < ((applyOps trackerInit.start.2 [TrackerOp.opCancel]).start).1 := by
  have h := connect_attempt_tracker_spec trackerInit 1 [TrackerOp.opCancel]
  exact ⟨h.2.2.2.1, h.2.2.2.2.1, h.2.2.2.2.2.1, h.2.2.2.2.2.2.1, h.2.2.2.2.2.2.2⟩

/-! ## C10 — cooldown timestamps written only on announcement -/

/-- C10: whenever `Announcer.process` returns `none`, the
`last_announced_at` mapping is left completely unchanged; and when it
announces callout `c`, the mapping is exactly the old one with `c` bound to
the current time — every other callout's entry reads the same as before. -/
theorem announcer_lastmap_update_spec (a : Announcer) (s : AnnouncerState)
    (callout : Option String) (ts : ℚ) :
    ((a.process s callout ts).1 = none →
      (a.process s callout ts).2.lastAnnouncedAt = s.lastAnnouncedAt)
    ∧ (∀ c : String, callout = some c → (a.process s callout ts).1 ≠ none →
        (a.process s callout ts).2.lastAnnouncedAt = setLast s.lastAnnouncedAt c ts
        ∧ ∀ d : String, d ≠ c →
            lookupLast (a.process s callout ts).2.lastAnnouncedAt d =
              lookupLast s.lastAnnouncedAt d) := by
  cases callout with
  | none =>
    refine ⟨fun _ => rfl, ?_⟩
    intro c hc
    exact absurd hc (by simp)
  | some c =>
    rcases process_some_cases a s c ts with ⟨heq, _⟩ | ⟨heq, _, _⟩
    · constructor
      · intro _
        rw [heq]
        exact updateCandidate_last s c
      · intro c' hc' hsome
        cases hc'
        rw [heq] at hsome
        exact absurd rfl hsome
    · constructor
      · intro hnone
        rw [heq] at hnone
        cases hnone
      · intro c' hc' _
        cases hc'
        rw [heq]
        refine ⟨rfl, ?_⟩
        intro d hd
        show lookupLast (setLast s.lastAnnouncedAt c ts) d = lookupLast s.lastAnnouncedAt d
        rw [lookupLast_setLast, if_neg hd]

/-- Witness for C10: with stability 1, a fresh gate announces "A" at time 0,
writes exactly the "A" entry, and callout "B" reads unchanged. -/
theorem announcer_lastmap_update_witness :
    (Announcer.process ⟨2, 1⟩ initState (some "A") 0).2.lastAnnouncedAt =
      setLast initState.lastAnnouncedAt "A" 0
    ∧ lookupLast (Announcer.process ⟨2, 1⟩ initState (some "A") 0).2.lastAnnouncedAt "B" =
      lookupLast initState.lastAnnouncedAt "B" := by
  have h := (announcer_lastmap_update_spec ⟨2, 1⟩ initState (some "A") 0).2 "A" rfl
    (by decide)
  exact ⟨h.1, h.2 "B" (by decide)⟩

/-! ## C1 — gate stability and cooldown -/

theorem updateCandidate_same (c : String) (k : Nat) (l : List (String × ℚ)) :
    updateCandidate ⟨some c, k, l⟩ c = ⟨some c, k + 1, l⟩ := by
  unfold updateCandidate
  rw [if_pos rfl]

theorem updateCandidate_new (s : AnnouncerState) (c : String) (h : ¬ s.candidate = some c) :
    updateCandidate s c = ⟨some c, 1, s.lastAnnouncedAt⟩ := by
  unfold updateCandidate
  rw [if_neg h]

theorem process_accum (a : Announcer) (c : String) (k : Nat) (l : List (String × ℚ)) (t : ℚ)
    (hk : (k : ℤ) + 1 < a.stableFrames) :
    a.process ⟨some c, k, l⟩ (some c) t = (none, ⟨some c, k + 1, l⟩) := by
  have hupd := updateCandidate_same c k l
  have hcast : (((updateCandidate ⟨some c, k, l⟩ c).candidateCount : ℤ)) < a.stableFrames := by
    rw [hupd]
    push_cast
    linarith
  simp only [Announcer.process]
  rw [if_pos hcast, hupd]

theorem process_first (a : Announcer) (s : AnnouncerState) (c : String) (t : ℚ)
    (hc : ¬ s.candidate = some c) (h1 : (1 : ℤ) < a.stableFrames) :
    a.process s (some c) t = (none, ⟨some c, 1, s.lastAnnouncedAt⟩) := by
  have hupd := updateCandidate_new s c hc
  have hcast : (((updateCandidate s c).candidateCount : ℤ)) < a.stableFrames := by
    rw [hupd]
    simpa using h1
  simp only [Announcer.process]
  rw [if_pos hcast, hupd]

theorem process_announce (a : Announcer) (s : AnnouncerState) (c : String) (t : ℚ)
    (hk : a.stableFrames ≤ ((updateCandidate s c).candidateCount : ℤ))
    (helig : ∀ lastAt, lookupLast s.lastAnnouncedAt c = some lastAt →
      a.cooldownSec ≤ t - lastAt) :
    a.process s (some c) t = (some (announceText c),
      ⟨some c, (updateCandidate s c).candidateCount, setLast s.lastAnnouncedAt c t⟩) := by
  rcases process_some_cases a s c t with ⟨heq, hcond⟩ | ⟨heq, _, _⟩
  · exfalso
    rcases hcond with h | ⟨la, hla, hlt⟩
    · linarith
    · linarith [helig la hla]
  · exact heq

theorem process_none_of_cooling (a : Announcer) (s : AnnouncerState) (c : String)
    (t lastAt : ℚ) (hla : lookupLast s.lastAnnouncedAt c = some lastAt)
    (hcool : t - lastAt < a.cooldownSec) :
    a.process s (some c) t = (none, updateCandidate s c) := by
  rcases process_some_cases a s c t with ⟨heq, _⟩ | ⟨_, _, hall⟩
  · exact heq
  · exfalso
    linarith [hall lastAt hla]

theorem feedSame_cons (a : Announcer) (c : String) (s : AnnouncerState) (t : ℚ)
    (rest : List ℚ) :
    feedSame a c s (t :: rest) =
      ((a.process s (some c) t).1 :: (feedSame a c (a.process s (some c) t).2 rest).1,
        (feedSame a c (a.process s (some c) t).2 rest).2) := rfl

theorem feedSame_append (a : Announcer) (c : String) (xs ys : List ℚ) :
    ∀ s, feedSame a c s (xs ++ ys) =
      ((feedSame a c s xs).1 ++ (feedSame a c (feedSame a c s xs).2 ys).1,
        (feedSame a c (feedSame a c s xs).2 ys).2) := by
  induction xs with
  | nil =>
    intro s
    simp [feedSame]
  | cons t rest ih =>
    intro s
    simp only [List.cons_append, feedSame_cons, ih]

theorem feedSame_accum (a : Announcer) (c : String) (l : List (String × ℚ)) :
    ∀ (ts : List ℚ) (k : Nat), ((k : ℤ) + ts.length < a.stableFrames) →
      feedSame a c ⟨some c, k, l⟩ ts =
        (List.replicate ts.length none, ⟨some c, k + ts.length, l⟩) := by
  intro ts
  induction ts with
  | nil =>
    intro k _
    simp [feedSame]
  | cons t rest ih =>
    intro k h
    have hlen : ((t :: rest).length : ℤ) = rest.length + 1 := by simp
    have hstep : a.process ⟨some c, k, l⟩ (some c) t = (none, ⟨some c, k + 1, l⟩) := by
      refine process_accum a c k l t ?_
      rw [hlen] at h
      omega
    have hrec := ih (k + 1) (by rw [hlen] at h; push_cast; omega)
    rw [feedSame_cons, hstep]
    simp only [hrec, List.replicate_succ, List.length_cons, Prod.mk.injEq,
      AnnouncerState.mk.injEq]
    exact ⟨trivial, trivial, by omega, trivial⟩

theorem feedSame_cooling (a : Announcer) (c : String) (lastAt : ℚ) :
    ∀ (us : List ℚ) (k : Nat) (l : List (String × ℚ)),
      lookupLast l c = some lastAt →
      (∀ u ∈ us, u - lastAt < a.cooldownSec) →
      feedSame a c ⟨some c, k, l⟩ us =
        (List.replicate us.length none, ⟨some c, k + us.length, l⟩) := by
  intro us
  induction us with
  | nil =>
    intro k l _ _
    simp [feedSame]
  | cons u rest ih =>
    intro k l hl hall
    have hstep : a.process ⟨some c, k, l⟩ (some c) u = (none, ⟨some c, k + 1, l⟩) := by
      rw [process_none_of_cooling a ⟨some c, k, l⟩ c u lastAt hl (hall u (by simp)),
        updateCandidate_same]
    have hrec := ih (k + 1) l hl (fun u hu => hall u (by simp [hu]))
    rw [feedSame_cons, hstep]
    simp only [hrec, List.replicate_succ, List.length_cons, Prod.mk.injEq,
      AnnouncerState.mk.injEq]
    exact ⟨trivial, trivial, by omega, trivial⟩

theorem feedSame_phase1 (a : Announcer) (c : String) (ts0 : List ℚ) (tl : ℚ)
    (hlen : (ts0.length : ℤ) + 1 = a.stableFrames) :
    feedSame a c initState (ts0 ++ [tl]) =
      (List.replicate ts0.length none ++ [some (announceText c)],
        ⟨some c, ts0.length + 1, [(c, tl)]⟩) := by
  cases ts0 with
  | nil =>
    have hstep : a.process initState (some c) tl =
        (some (announceText c), ⟨some c, 1, [(c, tl)]⟩) := by
      have hupd : updateCandidate initState c = ⟨some c, 1, []⟩ :=
        updateCandidate_new initState c (by simp [initState])
      have h := process_announce a initState c tl
        (by rw [hupd]; simp at hlen ⊢; omega)
        (by intro la hla; cases hla)
      rw [h, hupd]
      rfl
    simp only [List.nil_append, feedSame_cons, hstep]
    simp [feedSame, initState]
  | cons t0 rest =>
    have hstable : a.stableFrames = (rest.length : ℤ) + 2 := by
      simp only [List.length_cons] at hlen
      push_cast at hlen
      omega
    have hfirst : a.process initState (some c) t0 = (none, ⟨some c, 1, []⟩) := by
      have h := process_first a initState c t0 (by simp [initState]) (by rw [hstable]; omega)
      rw [h]
      rfl
    have haccum : feedSame a c ⟨some c, 1, []⟩ rest =
        (List.replicate rest.length none, ⟨some c, 1 + rest.length, []⟩) :=
      feedSame_accum a c [] rest 1 (by rw [hstable]; push_cast; omega)
    have hann : a.process ⟨some c, 1 + rest.length, []⟩ (some c) tl =
        (some (announceText c), ⟨some c, (1 + rest.length) + 1, [(c, tl)]⟩) := by
      have hupd := updateCandidate_same c (1 + rest.length) ([] : List (String × ℚ))
      have h := process_announce a ⟨some c, 1 + rest.length, []⟩ c tl
        (by rw [hupd]; rw [hstable]; push_cast; omega)
        (by intro la hla; cases hla)
      rw [h, hupd]
      rfl
    rw [List.cons_append, feedSame_cons, hfirst]
    simp only [feedSame_append, haccum]
    rw [feedSame_cons] at *
    simp only [hann, feedSame]
    simp only [List.length_cons, List.replicate_succ, Prod.mk.injEq, AnnouncerState.mk.injEq,
      List.cons_append, List.nil_append]
    exact ⟨by simp, trivial, by omega, trivial⟩

/-- C1: from a fresh gate with `stable_frames = n` and `cooldown_sec = cd`,
feeding the same callout `c` on `n` consecutive ticks (at arbitrary injected
times `ts0 ++ [tl]`) yields no announcement on the first `n - 1` ticks and
exactly one announcement on the `n`-th; feeding `c` again on any number of
ticks that all lie within the cooldown of the announcing tick `tl` yields
none; and one more tick at time `v` with `v - tl ≥ cd` yields exactly one
more announcement. Instantiated at `n = 2, cd = 2` with times
`0, 0.1, 0.2, 2.2` this is the spec's concrete scenario: announcements at
the `t = 0.1` and `t = 2.2` ticks only. -/
theorem announcer_stability_cooldown (cd : ℚ) (n : Nat) (c : String) (ts0 : List ℚ)
    (tl : ℚ) (hlen : ts0.length + 1 = n)
    (us : List ℚ) (hus : ∀ u ∈ us, u - tl < cd)
    (v : ℚ) (hv : cd ≤ v - tl) :
    (feedSame ⟨cd, (n : ℤ)⟩ c initState (ts0 ++ [tl])).1 =
      List.replicate (n - 1) none ++ [some (announceText c)]
    ∧ (feedSame ⟨cd, (n : ℤ)⟩ c
        (feedSame ⟨cd, (n : ℤ)⟩ c initState (ts0 ++ [tl])).2 us).1 =
      List.replicate us.length none
    ∧ (Announcer.process ⟨cd, (n : ℤ)⟩
        (feedSame ⟨cd, (n : ℤ)⟩ c
          (feedSame ⟨cd, (n : ℤ)⟩ c initState (ts0 ++ [tl])).2 us).2
        (some c) v).1 = some (announceText c) := by
  have h1 := feedSame_phase1 ⟨cd, (n : ℤ)⟩ c ts0 tl (by push_cast; omega)
  have hlook : lookupLast [(c, tl)] c = some tl := by simp [lookupLast]
  have h2 := feedSame_cooling ⟨cd, (n : ℤ)⟩ c tl us (ts0.length + 1) [(c, tl)] hlook hus
  have h3 : (Announcer.process ⟨cd, (n : ℤ)⟩
      ⟨some c, (ts0.length + 1) + us.length, [(c, tl)]⟩ (some c) v).1 =
      some (announceText c) := by
    have hupd := updateCandidate_same c ((ts0.length + 1) + us.length) [(c, tl)]
    have h := process_announce ⟨cd, (n : ℤ)⟩ ⟨some c, (ts0.length + 1) + us.length, [(c, tl)]⟩
      c v
      (by rw [hupd]; show (n : ℤ) ≤ _; push_cast; omega)
      (by
        intro la hla
        rw [hlook] at hla
        cases hla
        simpa using hv)
    rw [h]
  have hn1 : n - 1 = ts0.length := by omega
  rw [h1]
  refine ⟨by rw [hn1], ?_, ?_⟩
  · show (feedSame ⟨cd, (n : ℤ)⟩ c ⟨some c, ts0.length + 1, [(c, tl)]⟩ us).1 =
      List.replicate us.length none
    rw [h2]
  · show (Announcer.process ⟨cd, (n : ℤ)⟩
      (feedSame ⟨cd, (n : ℤ)⟩ c ⟨some c, ts0.length + 1, [(c, tl)]⟩ us).2 (some c) v).1 =
      some (announceText c)
    rw [h2]
    exact h3

/-- Witness for C1: the spec's concrete scenario — `stable_frames = 2`,
`cooldown_sec = 2.0`, callout "Mid" at times 0, 0.1, then 0.2 (cooling),
then 2.2 (cooldown elapsed): announcements at the second and fourth ticks
only. -/
theorem announcer_stability_cooldown_witness :
    (feedSame ⟨2, ((2 : Nat) : ℤ)⟩ "Mid" initState ([0] ++ [1/10])).1 =
      List.replicate (2 - 1) none ++ [some (announceText "Mid")]
    ∧ (feedSame ⟨2, ((2 : Nat) : ℤ)⟩ "Mid"
        (feedSame ⟨2, ((2 : Nat) : ℤ)⟩ "Mid" initState ([0] ++ [1/10])).2 [2/10]).1 =
      List.replicate [(2 : ℚ)/10].length none
    ∧ (Announcer.process ⟨2, ((2 : Nat) : ℤ)⟩
        (feedSame ⟨2, ((2 : Nat) : ℤ)⟩ "Mid"
          (feedSame ⟨2, ((2 : Nat) : ℤ)⟩ "Mid" initState ([0] ++ [1/10])).2 [2/10]).2
        (some "Mid") (22/10)).1 = some (announceText "Mid") := by
  refine announcer_stability_cooldown 2 2 "Mid" [0] (1/10) rfl [2/10] ?_ (22/10) (by norm_num)
  intro u hu
  rw [List.mem_singleton] at hu
  subst hu
  norm_num

/-! ## C2 — first-match region resolution -/

theorem map_point_none_iff (regions : List Region) (p : ℚ × ℚ) :
    map_point regions p = none ↔ ∀ r ∈ regions, point_in_polygon p r.polygon = false := by
  induction regions with
  | nil => simp [map_point]
  | cons r rest ih =>
    simp only [map_point]
    by_cases h : point_in_polygon p r.polygon = true
    · simp [h]
    · simp only [Bool.not_eq_true] at h
      simp [h, ih]

theorem map_point_first (regions : List Region) (p : ℚ × ℚ) :
    ∀ (i : Nat) (h : i < regions.length),
      point_in_polygon p (regions.get ⟨i, h⟩).polygon = true →
      (∀ (j : Nat) (hj : j < i),
        point_in_polygon p (regions.get ⟨j, Nat.lt_trans hj h⟩).polygon = false) →
      map_point regions p = some (regions.get ⟨i, h⟩).name := by
  induction regions with
  | nil =>
    intro i h
    exact absurd h (by simp)
  | cons r rest ih =>
    intro i h hcont hprev
    cases i with
    | zero =>
      simp only [List.get] at hcont ⊢
      simp only [map_point]
      rw [if_pos hcont]
    | succ i' =>
      have h0 : point_in_polygon p r.polygon = false := by
        have := hprev 0 (Nat.succ_pos i')
        simpa using this
      simp only [map_point]
      rw [if_neg (by simp [h0])]
      have hcont' : point_in_polygon p (rest.get ⟨i', Nat.lt_of_succ_lt_succ h⟩).polygon
          = true := by simpa using hcont
      have hprev' : ∀ (j : Nat) (hj : j < i'),
          point_in_polygon p
            (rest.get ⟨j, Nat.lt_trans hj (Nat.lt_of_succ_lt_succ h)⟩).polygon = false := by
        intro j hj
        have := hprev (j + 1) (Nat.succ_lt_succ hj)
        simpa using this
      have := ih i' (Nat.lt_of_succ_lt_succ h) hcont' hprev'
      simpa using this

/-- C2: `map_point` iterates the caller-supplied region list in order and
returns the name of the first region whose polygon contains the point
(first-match-wins at index `i`: the point is contained there and in no
earlier region), and returns `none` exactly when the point is outside every
configured polygon (outside in the sense of the component's containment
test, which counts the tolerance boundary as inside). The embedding is a
pure function, so the result depends only on the region list and the point. -/
theorem map_point_first_match_spec (regions : List Region) (p : ℚ × ℚ) :
    (map_point regions p = none ↔ ∀ r ∈ regions, point_in_polygon p r.polygon = false)
    ∧ (∀ (i : Nat) (h : i < regions.length),
        point_in_polygon p (regions.get ⟨i, h⟩).polygon = true →
        (∀ (j : Nat) (hj : j < i),
          point_in_polygon p (regions.get ⟨j, Nat.lt_trans hj h⟩).polygon = false) →
        map_point regions p = some (regions.get ⟨i, h⟩).name) :=
  ⟨map_point_none_iff regions p, map_point_first regions p⟩

/-- Witness for C2: two overlapping square regions "A" and "B"; the point
(1,1) inside both resolves to the first, "A"; the point (5,5) outside both
resolves to `none`. -/
theorem map_point_first_match_witness :
    map_point [⟨"A", [(0, 0), (2, 0), (2, 2), (0, 2)]⟩,
        ⟨"B", [(0, 0), (2, 0), (2, 2), (0, 2)]⟩] (1, 1) = some "A"
    ∧ map_point [⟨"A", [(0, 0), (2, 0), (2, 2), (0, 2)]⟩,
        ⟨"B", [(0, 0), (2, 0), (2, 2), (0, 2)]⟩] (5, 5) = none := by
  have hin : point_in_polygon ((1 : ℚ), (1 : ℚ)) [(0, 0), (2, 0), (2, 2), (0, 2)] = true := by
    norm_num [point_in_polygon, pipEdges, point_on_segment, List.rotate, List.zip,
      List.zipWith, abs_of_nonneg, abs_of_nonpos]
  have hout : point_in_polygon ((5 : ℚ), (5 : ℚ)) [(0, 0), (2, 0), (2, 2), (0, 2)] = false := by
    norm_num [point_in_polygon, pipEdges, point_on_segment, List.rotate, List.zip,
      List.zipWith, abs_of_nonneg, abs_of_nonpos]
  constructor
  · exact (map_point_first_match_spec _ _).2 0 (by norm_num) hin
      (fun j hj => absurd hj (Nat.not_lt_zero j))
  · refine (map_point_first_match_spec _ _).1.mpr ?_
    intro r hr
    rcases List.mem_cons.mp hr with rfl | hr2
    · exact hout
    · rcases List.mem_cons.mp hr2 with rfl | hr3
      · exact hout
      · exact absurd hr3 (List.not_mem_nil r)

/-! ## C3 — boundary points and degenerate polygons -/

theorem pipEdges_of_onseg (p : ℚ × ℚ) :
    ∀ (es : List ((ℚ × ℚ) × (ℚ × ℚ))) (ins : Bool),
      (∃ e ∈ es, point_on_segment p e.1 e.2 = true) → pipEdges p es ins = true := by
  intro es
  induction es with
  | nil =>
    intro ins h
    simp at h
  | cons e rest ih =>
    intro ins h
    obtain ⟨a, b⟩ := e
    simp only [pipEdges]
    by_cases hseg : point_on_segment p a b = true
    · rw [if_pos hseg]
    · rw [if_neg hseg]
      have hrest : ∃ e ∈ rest, point_on_segment p e.1 e.2 = true := by
        rcases h with ⟨e', he', hs⟩
        rcases List.mem_cons.mp he' with rfl | hmem
        · exact absurd hs hseg
        · exact ⟨e', hmem, hs⟩
      split_ifs with h1 h2
      · exact ih _ hrest
      · exact ih _ hrest
      · exact ih _ hrest

theorem point_on_segment_exact (a b : ℚ × ℚ) (t : ℚ) (h0 : 0 ≤ t) (h1 : t ≤ 1) :
    point_on_segment (a.1 + t * (b.1 - a.1), a.2 + t * (b.2 - a.2)) a b = true := by
  unfold point_on_segment
  dsimp only
  have hc : (a.1 + t * (b.1 - a.1) - a.1) * (b.2 - a.2) -
      (a.2 + t * (b.2 - a.2) - a.2) * (b.1 - a.1) = 0 := by ring
  have hd : (a.1 + t * (b.1 - a.1) - a.1) * (b.1 - a.1) +
      (a.2 + t * (b.2 - a.2) - a.2) * (b.2 - a.2) =
      t * ((b.1 - a.1) ^ 2 + (b.2 - a.2) ^ 2) := by ring
  rw [hc, hd]
  rw [if_neg (by norm_num)]
  rw [if_neg (not_lt.mpr (mul_nonneg h0 (by positivity)))]
  exact decide_eq_true (by nlinarith [sq_nonneg (b.1 - a.1), sq_nonneg (b.2 - a.2)])

/-- C3: a polygon with fewer than 3 vertices contains no point at all; for a
polygon with at least 3 vertices, any point passing the on-edge test (the
collinearity cross product within the absolute tolerance 1e-6 and the
projection within the segment) is classified inside; and every point exactly
on an edge — a convex combination `a + t•(b − a)`, `0 ≤ t ≤ 1` — passes that
on-edge test. -/
theorem point_in_polygon_boundary_spec (polygon : List (ℚ × ℚ)) (p : ℚ × ℚ) :
    (polygon.length < 3 → point_in_polygon p polygon = false)
    ∧ (3 ≤ polygon.length →
        (∃ e ∈ polygon.zip (polygon.rotate 1), point_on_segment p e.1 e.2 = true) →
        point_in_polygon p polygon = true)
    ∧ (∀ (a b : ℚ × ℚ) (t : ℚ), 0 ≤ t → t ≤ 1 →
        point_on_segment (a.1 + t * (b.1 - a.1), a.2 + t * (b.2 - a.2)) a b = true) := by
  refine ⟨?_, ?_, fun a b t h0 h1 => point_on_segment_exact a b t h0 h1⟩
  · intro h
    unfold point_in_polygon
    rw [if_pos h]
  · intro h3 hex
    unfold point_in_polygon
    rw [if_neg (by omega)]
    exact pipEdges_of_onseg p _ false hex

/-- Witness for C3: the midpoint of the bottom edge of the unit square is
classified inside; the same point is not contained in the degenerate
2-vertex "polygon" made of that edge alone. -/
theorem point_in_polygon_boundary_witness :
    point_in_polygon ((1 : ℚ)/2, (0 : ℚ)) [(0, 0), (1, 0), (1, 1), (0, 1)] = true
    ∧ point_in_polygon ((1 : ℚ)/2, (0 : ℚ)) [(0, 0), (1, 0)] = false := by
  constructor
  · have h := (point_in_polygon_boundary_spec [(0, 0), (1, 0), (1, 1), (0, 1)]
      ((1 : ℚ)/2, (0 : ℚ))).2.2 (0, 0) (1, 0) (1/2) (by norm_num) (by norm_num)
    have heq : (((0 : ℚ) + 1/2 * ((1 : ℚ) - 0), (0 : ℚ) + 1/2 * ((0 : ℚ) - 0)) : ℚ × ℚ) =
        (((1 : ℚ)/2, (0 : ℚ)) : ℚ × ℚ) := by norm_num
    rw [heq] at h
    refine (point_in_polygon_boundary_spec _ _).2.1 (by norm_num) ?_
    exact ⟨((0, 0), (1, 0)), by simp [List.rotate, List.zip, List.zipWith], h⟩
  · exact (point_in_polygon_boundary_spec _ _).1 (by norm_num)

/-! ## C7 — detector contour selection and centroid -/

theorem maxByArea_mem (rest : List Contour) : ∀ best, maxByArea best rest ∈ best :: rest := by
  induction rest with
  | nil =>
    intro best
    simp [maxByArea]
  | cons c cs ih =>
    intro best
    simp only [maxByArea]
    by_cases h : best.area < c.area
    · rw [if_pos h]
      rcases List.mem_cons.mp (ih c) with h1 | h1
      · rw [h1]
        exact List.mem_cons_of_mem _ (List.mem_cons_self c cs)
      · exact List.mem_cons_of_mem _ (List.mem_cons_of_mem _ h1)
    · rw [if_neg h]
      rcases List.mem_cons.mp (ih best) with h1 | h1
      · rw [h1]
        exact List.mem_cons_self best (c :: cs)
      · exact List.mem_cons_of_mem _ (List.mem_cons_of_mem _ h1)

theorem maxByArea_ge (rest : List Contour) :
    ∀ best, ∀ x ∈ best :: rest, x.area ≤ (maxByArea best rest).area := by
  induction rest with
  | nil =>
    intro best x hx
    rcases List.mem_cons.mp hx with rfl | hx2
    · exact le_refl _
    · exact absurd hx2 (List.not_mem_nil x)
  | cons c cs ih =>
    intro best x hx
    simp only [maxByArea]
    by_cases h : best.area < c.area
    · rw [if_pos h]
      rcases List.mem_cons.mp hx with rfl | hx2
      · exact le_trans h.le (ih _ _ (List.mem_cons_self _ _))
      · rcases List.mem_cons.mp hx2 with rfl | hx3
        · exact ih _ _ (List.mem_cons_self _ _)
        · exact ih c x (List.mem_cons_of_mem _ hx3)
    · rw [if_neg h]
      rcases List.mem_cons.mp hx with rfl | hx2
      · exact ih _ _ (List.mem_cons_self _ _)
      · rcases List.mem_cons.mp hx2 with rfl | hx3
        · exact le_trans (not_lt.mp h) (ih _ _ (List.mem_cons_self _ _))
        · exact ih best x (List.mem_cons_of_mem _ hx3)

/-- C7 (amended): the detector's contour stage picks as winner the first
contour of maximal area; it returns `none` when no contour exists, when the
winning area is below the configurable minimum (default 8), or when the
winning contour's zeroth moment `m00` is zero; otherwise it returns the area
centroid `(m10/m00, m01/m00)` truncated toward zero by Python's `int()` —
not rounded to the nearest integer as the original claim stated. -/
theorem detector_contour_selection_spec (minArea : ℚ) (contours : List Contour) :
    (contours = [] → detectFromContours minArea contours = none)
    ∧ (∀ c rest, contours = c :: rest →
        maxByArea c rest ∈ contours
        ∧ (∀ x ∈ contours, x.area ≤ (maxByArea c rest).area)
        ∧ ((maxByArea c rest).area < minArea → detectFromContours minArea contours = none)
        ∧ (¬ (maxByArea c rest).area < minArea → (maxByArea c rest).moments.m00 = 0 →
            detectFromContours minArea contours = none)
        ∧ (¬ (maxByArea c rest).area < minArea → (maxByArea c rest).moments.m00 ≠ 0 →
            detectFromContours minArea contours =
              some (pyInt ((maxByArea c rest).moments.m10 / (maxByArea c rest).moments.m00),
                pyInt ((maxByArea c rest).moments.m01 / (maxByArea c rest).moments.m00)))) := by
  constructor
  · intro h
    subst h
    rfl
  · intro c rest h
    subst h
    refine ⟨maxByArea_mem rest c, maxByArea_ge rest c, ?_, ?_, ?_⟩
    · intro hlt
      simp only [detectFromContours]
      rw [if_pos hlt]
    · intro hge hm
      simp only [detectFromContours]
      rw [if_neg hge, if_pos hm]
    · intro hge hm
      simp only [detectFromContours]
      rw [if_neg hge, if_neg hm]

/-- Witness for C7 (amended) at a concrete contour of area 10 with moments
`m00 = 10, m10 = 29, m01 = 0`: the detector returns the truncated centroid. -/
theorem detector_contour_selection_witness :
    detectFromContours 8 [⟨10, ⟨10, 29, 0⟩⟩] =
      some (pyInt ((29 : ℚ) / 10), pyInt ((0 : ℚ) / 10)) := by
  have h := (detector_contour_selection_spec 8 [⟨10, ⟨10, 29, 0⟩⟩]).2 ⟨10, ⟨10, 29, 0⟩⟩ [] rfl
  exact h.2.2.2.2 (by norm_num [maxByArea]) (by norm_num [maxByArea])

/-- Counterexample for C7 as stated: a single contour of area 10 with
moments `m00 = 10, m10 = 29, m01 = 0` has centroid `(2.9, 0)`; rounded to
the nearest integer pixel that is `(3, 0)`, but the code computes
`int(2.9) = 2` and returns `(2, 0)`. -/
theorem detector_centroid_rounding_counterexample :
    detectFromContours 8 [⟨10, ⟨10, 29, 0⟩⟩] ≠
      some (roundNearest ((29 : ℚ) / 10), roundNearest ((0 : ℚ) / 10)) := by
  have h1 : detectFromContours 8 [⟨10, ⟨10, 29, 0⟩⟩] = some ((2 : ℤ), (0 : ℤ)) := by
    have h := ((detector_contour_selection_spec 8 [⟨10, ⟨10, 29, 0⟩⟩]).2
      ⟨10, ⟨10, 29, 0⟩⟩ [] rfl).2.2.2.2 (by norm_num [maxByArea]) (by norm_num [maxByArea])
    rw [h]
    norm_num [maxByArea, pyInt]
  have h2 : roundNearest ((29 : ℚ) / 10) = 3 := by
    norm_num [roundNearest]
  have h3 : roundNearest ((0 : ℚ) / 10) = 0 := by
    norm_num [roundNearest]
  rw [h1, h2, h3]
  simp

/-! ## C5 — live stream source name matching -/

/-- C5: an exact case-insensitive match on a discovered name or one of its
alias variants is preferred over substring containment (the first exact
match wins whenever one exists, and containment is consulted only when pass
1 finds nothing); an empty normalized request selects the first discovered
source; and when selection fails, the connect step errors out with the
`ConnectError` payload carrying the requested name, its normalization, and
the complete discovered list (whose names its human-readable rendering
enumerates). -/
theorem ndi_source_matching_spec (sourceText : String) (discovered : List NDISourceInfo) :
    (normalize_requested_source_text sourceText = "" →
      select_best_ndi_source sourceText discovered = discovered.head?)
    ∧ (∀ src, normalize_requested_source_text sourceText ≠ "" →
        discovered.find?
          (exactAliasMatch (pyLower (normalize_requested_source_text sourceText))) = some src →
        select_best_ndi_source sourceText discovered = some src)
    ∧ (normalize_requested_source_text sourceText ≠ "" →
        discovered.find?
          (exactAliasMatch (pyLower (normalize_requested_source_text sourceText))) = none →
        select_best_ndi_source sourceText discovered =
          discovered.find?
            (containsAliasMatch (pyLower (normalize_requested_source_text sourceText))))
    ∧ (select_best_ndi_source sourceText discovered = none →
        connectOnceSelect sourceText discovered =
          Except.error ⟨sourceText, normalize_requested_source_text sourceText, discovered⟩) := by
  refine ⟨?_, ?_, ?_, ?_⟩
  · intro hn
    unfold select_best_ndi_source
    by_cases hd : discovered.isEmpty
    · rw [if_pos hd]
      rw [List.isEmpty_iff] at hd
      subst hd
      rfl
    · rw [if_neg hd, if_pos hn]
  · intro src hn hfind
    have hd : ¬ discovered.isEmpty := by
      intro hd
      rw [List.isEmpty_iff] at hd
      subst hd
      simp [List.find?] at hfind
    unfold select_best_ndi_source
    rw [if_neg hd, if_neg hn]
    simp only [hfind]
  · intro hn hfind
    by_cases hd : discovered.isEmpty
    · unfold select_best_ndi_source
      rw [if_pos hd]
      rw [List.isEmpty_iff] at hd
      subst hd
      rfl
    · unfold select_best_ndi_source
      rw [if_neg hd, if_neg hn]
      simp only [hfind]
  · intro hsel
    unfold connectOnceSelect
    rw [hsel]

/-- Witness for C5: requesting "Cam" against a discovered list where the
first source "Main Camera" matches only by substring while the second source
"cam" matches exactly selects the exact match; an empty request selects the
first discovered source; and the unmatched request "zzz" errors out carrying
the full discovered list. -/
theorem ndi_source_matching_witness :
    select_best_ndi_source "Cam" [⟨"Main Camera", "a"⟩, ⟨"cam", "b"⟩] = some ⟨"cam", "b"⟩
    ∧ select_best_ndi_source "" [⟨"Main Camera", "a"⟩, ⟨"cam", "b"⟩] =
        some ⟨"Main Camera", "a"⟩
    ∧ connectOnceSelect "zzz" [⟨"Main Camera", "a"⟩] =
        Except.error ⟨"zzz", "zzz", [⟨"Main Camera", "a"⟩]⟩ := by
  refine ⟨?_, ?_, ?_⟩
  · exact (ndi_source_matching_spec "Cam" [⟨"Main Camera", "a"⟩, ⟨"cam", "b"⟩]).2.1
      ⟨"cam", "b"⟩ (by decide) (by decide)
  · exact (ndi_source_matching_spec "" [⟨"Main Camera", "a"⟩, ⟨"cam", "b"⟩]).1 (by decide)
  · exact (ndi_source_matching_spec "zzz" [⟨"Main Camera", "a"⟩]).2.2.2 (by decide)
